import Mathlib

/-!
Verification of the multipart-upload writer of the `s3` Go package.

The development shallowly embeds the uploader of `s3.go` (`newUploader`,
`uploader.Write`, `uploader.flush`, `uploader.retryUploadPart`,
`uploader.putPart`, `uploader.Close`, `uploader.Abort`, `uploader.abort`,
the package-level `min`) together with `Object.urlSafeKey` of `object.go`
(which delegates to Go `url.QueryEscape`), and, for comparison, the ETag
trimming of the `writer` variant kept in `README.md`.  Byte strings are
modelled as `List Nat` (one entry per byte), machine integers as `Nat`
(all the quantities involved are non-negative and bounded by
`maxPartSize < 2^31`, so no overflow occurs in the source), and network
interaction as explicit environment parameters (response statuses, header
values, per-attempt outcomes) plus a trace of issued requests.
Concurrency is flattened: the worker pool only fills in the `ETag` field
of already-queued parts, so handing a part to the channel is recorded in
the state (`sent`) and entity-tag completion is modelled as a separate
phase (`applyTags`) that may run in any order.
-/

namespace S3

/-- Bytes are modelled as natural numbers (one per Go byte). -/
abbrev Byte := Nat

/-- Constant `minPartSize = 5 * 1024 * 1024` — defined by amazon (`s3.go`). -/
def minPartSize : Nat := 5 * 1024 * 1024

/-- Constant `maxPartSize = 1<<31 - 1` — for 32-bit use (`s3.go`). -/
def maxPartSize : Nat := 2 ^ 31 - 1

/-- Constant `maxObjSize = 5 * 1024 * 1024 * 1024 * 1024` (`s3.go`). -/
def maxObjSize : Nat := 5 * 1024 * 1024 * 1024 * 1024

/-- Constant `maxNPart = 10000` (`s3.go`). -/
def maxNPart : Nat := 10000

/-- Constant `nTry = 2` — the retry budget per part (`s3.go`). -/
def nTry : Nat := 2

/-- Constant `concurrency = 5` — size of the worker pool (`s3.go`). -/
def concurrency : Nat := 5

/-- Function `min(a, b int64) int64` from `s3.go`; its arguments here are
always non-negative, so `Nat` is faithful. -/
def goMin (a b : Nat) : Nat :=
  if a < b then a else b

/-- Errors returned by the uploader: `syscall.EINVAL`, a `newS3Error`
(carrying the response status), or a transport error. -/
inductive GoErr where
  | einval : GoErr
  | s3err (status : Nat) : GoErr
  | transport (tag : Nat) : GoErr
deriving DecidableEq

/-- One entry of `u.xml.Part`: the Go `part` struct.  `content` is the
byte slice handed to `bytes.NewReader` (`u.buf[:u.off]`), `len` its
length. -/
structure Part where
  content : List Byte
  len : Nat
  PartNumber : Nat
  ETag : String
deriving DecidableEq

/-- State of the Go `uploader` struct.  The fields `c`, `path`, `url` and
`UploadId` only name the remote session and are omitted; `ch` is replaced
by the trace `sent` of part numbers handed to the worker channel; `wg` is
implicit in the sequential model. -/
structure Uploader where
  bufsz : Nat
  /-- Length `len(u.buf)` of the allocated buffer; `0` models a nil
  `u.buf` (`cap(u.buf) == 0`). -/
  bufcap : Nat
  /-- Bytes `u.buf[:u.off]` copied in so far. -/
  data : List Byte
  /-- Manifest `u.xml.Part` in append order (with the bytes of each part). -/
  parts : List Part
  /-- Counter `u.part`, the last assigned part number. -/
  part : Nat
  closed : Bool
  aborted : Bool
  /-- Session error `u.err`. -/
  uerr : Option GoErr
  /-- Part numbers handed to `u.ch` (each handoff leads to one part
  upload by a worker). -/
  sent : List Nat
deriving DecidableEq

/-- Buffer allocation branch of `uploader.Write`:
`u.buf = make([]byte, int(u.bufsz))` followed by
`u.bufsz = min(u.bufsz+u.bufsz/1000, maxPartSize)`. -/
def allocBuf (u : Uploader) : Uploader :=
  { u with
    bufcap := u.bufsz
    bufsz := goMin (u.bufsz + u.bufsz / 1000) maxPartSize }

/-- Model of `uploader.flush`: assign the next part number, append the
part to `u.xml.Part`, hand it to the channel, reset the buffer. -/
def flushPart (u : Uploader) : Uploader :=
  { u with
    part := u.part + 1
    parts := u.parts ++ [{ content := u.data, len := u.data.length,
                           PartNumber := u.part + 1, ETag := "" }]
    sent := u.sent ++ [u.part + 1]
    data := []
    bufcap := 0 }

/-- Flush check `if u.off == len(u.buf) { u.flush() }` at the end of the
loop body of `uploader.Write`. -/
def maybeFlush (u : Uploader) : Uploader :=
  if u.data.length = u.bufcap then flushPart u else u

/-- Copy step `r := copy(u.buf[u.off:], p[n:]); u.off += r; n += r` of the
`uploader.Write` loop body followed by the flush check: copy as many bytes
as fit into the allocated buffer.  Returns the new state and the
not-yet-consumed remainder of `p`. -/
def stepFill (u : Uploader) (p : List Byte) : Uploader × List Byte :=
  let r := Nat.min (u.bufcap - u.data.length) p.length
  (maybeFlush { u with data := u.data ++ p.take r }, p.drop r)

/-- One iteration of the `for n < len(p)` loop body of `uploader.Write`:
allocate the buffer if nil (`cap(u.buf) == 0`), then copy and flush. -/
def writeStep (u : Uploader) (p : List Byte) : Uploader × List Byte :=
  stepFill (if u.bufcap = 0 then allocBuf u else u) p

/-- Loop `for n < len(p)` of `uploader.Write`.  The fuel argument only
serves termination; `fuel = p.length` always suffices because each
iteration consumes at least one byte from any state the uploader reaches
(see `writeLoop_spec`). -/
def writeLoop : Nat → Uploader → List Byte → Uploader
  | _, u, [] => u
  | 0, u, _ :: _ => u
  | fuel + 1, u, b :: t =>
    let s := writeStep u (b :: t)
    writeLoop fuel s.1 s.2

/-- Model of `uploader.Write`: guard on `closed` (EINVAL) and on a
recorded session error, then run the copy/flush loop; on the normal path
Go returns `n = len(p)` (the loop exits when all of `p` is consumed) and
a nil error. -/
def write (u : Uploader) (p : List Byte) : Nat × Option GoErr × Uploader :=
  if u.closed then (0, some GoErr.einval, u)
  else
    match u.uerr with
    | some e => (0, some e, u)
    | none => (p.length, none, writeLoop p.length u p)

/-- Requests issued during `uploader.Close`: the completion POST or the
abort DELETE (part PUTs are already traced in `Uploader.sent`). -/
inductive Action where
  | complete : Action
  | abortReq : Action
deriving DecidableEq

/-- Environment of a session shutdown: status of the completion POST
response and of the abort DELETE response. -/
structure CloseEnv where
  completeStatus : Nat
  abortStatus : Nat
deriving DecidableEq

/-- Model of `uploader.Close`: EINVAL when already closed; flush a pending
buffer (`cap(u.buf) > 0`); wait for the workers; mark closed; if the abort
flag or a recorded part error is set, issue the abort DELETE
(`uploader.abort`, which ignores every failure of the DELETE itself —
`env.abortStatus` is never consulted) and return `u.err`; otherwise POST
the completion manifest. -/
def close (env : CloseEnv) (u : Uploader) :
    Option GoErr × Uploader × List Action :=
  if u.closed then (some GoErr.einval, u, [])
  else
    let u1 := if 0 < u.bufcap then flushPart u else u
    -- u.wg.Wait(); close(u.ch)
    let u2 := { u1 with closed := true }
    if u2.aborted || u2.uerr.isSome then
      -- u.abort() swallows the DELETE outcome entirely; return u.err
      (u2.uerr, u2, [Action.abortReq])
    else if env.completeStatus ≠ 200 then
      (some (GoErr.s3err env.completeStatus), u2, [Action.complete])
    else
      (none, u2, [Action.complete])

/-- Model of `uploader.Abort`: set the abort flag, then `Close`. -/
def abortU (env : CloseEnv) (u : Uploader) :
    Option GoErr × Uploader × List Action :=
  close env { u with aborted := true }

/-- State `newUploader` returns after a successful initiation request:
`u.bufsz = minPartSize`, everything else zero. -/
def initUploader : Uploader :=
  { bufsz := minPartSize, bufcap := 0, data := [], parts := [], part := 0,
    closed := false, aborted := false, uerr := none, sent := [] }

/-- Run a sequence of `Write` calls, one per chunk. -/
def runWrites (chunks : List (List Byte)) : Uploader :=
  chunks.foldl (fun u c => (write u c).2.2) initUploader

/-- State after writing `chunks` and closing. -/
def finalState (env : CloseEnv) (chunks : List (List Byte)) : Uploader :=
  (close env (runWrites chunks)).2.1

/-- Parts of the completed session (the manifest order of `u.xml.Part`). -/
def finalParts (env : CloseEnv) (chunks : List (List Byte)) : List Part :=
  (finalState env chunks).parts

/-- Buffer-capacity schedule: `schedule n` is the size of the `n`-th
allocated buffer (0-based), i.e. the value of `u.bufsz` consumed by the
`n`-th execution of the allocation branch of `uploader.Write`. -/
def schedule : Nat → Nat
  | 0 => minPartSize
  | n + 1 => goMin (schedule n + schedule n / 1000) maxPartSize

/-- All bytes accepted by the uploader so far: flushed parts then the
pending buffer. -/
def allBytes (u : Uploader) : List Byte :=
  (u.parts.map Part.content).flatten ++ u.data

/-- Sizes (byte lengths) of the queued parts, in manifest order. -/
def partSizes (u : Uploader) : List Nat :=
  u.parts.map fun q => q.content.length

/-- Invariant of every uploader state reachable while writing (before the
final flush of `Close`). -/
structure WF (u : Uploader) : Prop where
  data_nil : u.bufcap = 0 → u.data = []
  data_lt : 0 < u.bufcap → u.data.length < u.bufcap
  cap_sched : 0 < u.bufcap → u.bufcap = schedule u.parts.length
  sz_sched0 : u.bufcap = 0 → u.bufsz = schedule u.parts.length
  sz_sched1 : 0 < u.bufcap → u.bufsz = schedule (u.parts.length + 1)
  sizes : partSizes u = (List.range u.parts.length).map schedule
  count : u.part = u.parts.length
  nums : u.parts.map Part.PartNumber = List.range' 1 u.parts.length

/-- One allocation step on the pair (next buffer size, total bytes
scheduled so far): the successive buffer capacities with their running
sum. -/
def schedStep : Nat × Nat → Nat × Nat
  | (s, acc) => (goMin (s + s / 1000) maxPartSize, acc + s)

/-- A worker finishing the upload of part number `n` records the entity
tag `t` on that part descriptor (in place, leaving the manifest order
alone). -/
def setTag (n : Nat) (t : String) (ps : List Part) : List Part :=
  ps.map fun q => if q.PartNumber = n then { q with ETag := t } else q

/-- Entity-tag completion of the queued parts in an arbitrary finish
order: workers record tags independently, one part at a time. -/
def applyTags (order : List (Nat × String)) (ps : List Part) : List Part :=
  order.foldl (fun acc nt => setTag nt.1 nt.2 acc) ps

/-- Position-tracking reader underlying a part (`bytes.Reader` over
`u.buf[:u.off]`). -/
structure Reader where
  content : List Byte
  pos : Nat
deriving DecidableEq

/-- Seek `p.r.Seek(0, 0)`: rewind to the start. -/
def seekStart (r : Reader) : Reader :=
  { r with pos := 0 }

/-- Reading the reader to exhaustion (the request-body read of a part
PUT): yields the bytes from the current position and leaves the position
at the end. -/
def readAll (r : Reader) : List Byte × Reader :=
  (r.content.drop r.pos, { r with pos := r.content.length })

/-- Loop `for i := 0; i < nTry; i++` of `uploader.retryUploadPart`, with
`att i` the outcome of the `i`-th PUT attempt (`none` = success):
`p.r.Seek(0, 0)`, send the body, return on success; once the budget is
exhausted, assign the last error to `u.err`.  The first component
collects the bytes sent by each attempt made; the second is the value
assigned to `u.err` (`none` when some attempt succeeded, in which case
`u.err` is left alone). -/
def retryAux (att : Nat → Option GoErr) :
    Nat → Nat → Reader → Option GoErr → List (List Byte) × Option GoErr
  | 0, _, _, last => ([], last)
  | k + 1, i, r, _ =>
    let r1 := seekStart r
    let sent := (readAll r1).1
    let r2 := (readAll r1).2
    match att i with
    | none => ([sent], none)
    | some e =>
      let rest := retryAux att k (i + 1) r2 (some e)
      (sent :: rest.1, rest.2)

/-- Model of `uploader.retryUploadPart` on a part whose reader holds
`content`: run the retry loop with the full budget `nTry`, starting at
attempt 0 with the reader in its initial state and the `err` variable
nil.  The result is (bytes sent per attempt, the value the loop leaves in
`u.err`; `none` means an attempt succeeded and `u.err` is not
assigned). -/
def retryUploadPart (content : List Byte) (att : Nat → Option GoErr) :
    List (List Byte) × Option GoErr :=
  retryAux att nTry 0 { content := content, pos := 0 } none

/-- Go slice expression `s[lo:hi]` on a byte string: `none` models the
runtime "slice bounds out of range" panic. -/
def goSlice (s : List Byte) (lo hi : Int) : Option (List Byte) :=
  if 0 ≤ lo ∧ lo ≤ hi ∧ hi ≤ (s.length : Int) then
    some ((s.take hi.toNat).drop lo.toNat)
  else none

/-- Expression `s := resp.Header.Get("etag"); p.ETag = s[1 : len(s)-1]` —
the entity-tag extraction of `uploader.putPart` (`s3.go`).  `none` is the
panic of the slice expression. -/
def putPartETag (s : List Byte) : Option (List Byte) :=
  goSlice s 1 ((s.length : Int) - 1)

/-- Outcome of one `uploader.putPart` call given the response status and
the raw value of the `ETag` response header (transport errors aside). -/
inductive PutOutcome where
  | panicked : PutOutcome
  | failed (e : GoErr) : PutOutcome
  | ok (etag : List Byte) : PutOutcome
deriving DecidableEq

/-- Model of `uploader.putPart` (`s3.go`) past the request send: a
non-200 status becomes `newS3Error`; on 200 the ETag header value is
sliced as `s[1 : len(s)-1]` and recorded. -/
def putPartGo (status : Nat) (etagHdr : List Byte) : PutOutcome :=
  if status ≠ 200 then PutOutcome.failed (GoErr.s3err status)
  else
    match putPartETag etagHdr with
    | none => PutOutcome.panicked
    | some t => PutOutcome.ok t

/-- Function `strings.TrimLeft`: drop leading bytes that lie in `cut`. -/
def trimLeft (cut : List Byte) : List Byte → List Byte
  | [] => []
  | a :: t => if a ∈ cut then trimLeft cut t else a :: t

/-- Function `strings.Trim(s, cutset)`: drop leading and trailing bytes
in `cut`.  With `cut = [32, 34]` (space and double quote) this is the
ETag post-processing of the `writer` variant (`README.md`), which trims
the space-and-quote cutset, and it is the behavior the specification
describes: surrounding double quotes and surrounding whitespace
stripped. -/
def trimCutset (cut : List Byte) (s : List Byte) : List Byte :=
  (trimLeft cut ((trimLeft cut s).reverse)).reverse

/-- Predicate `shouldEscape(c, encodeQueryComponent)` of Go `net/url` on
a byte: keep ASCII alphanumerics and the bytes of `-`, `_`, `.`, `~`,
escape everything else (reserved bytes included, as in the
query-component mode). -/
def shouldEscapeQuery (c : Byte) : Bool :=
  if (97 ≤ c ∧ c ≤ 122) ∨ (65 ≤ c ∧ c ≤ 90) ∨ (48 ≤ c ∧ c ≤ 57) then false
  else if c = 45 ∨ c = 95 ∨ c = 46 ∨ c = 126 then false
  else true

/-- Bytes of the string of upper-case hex digits used by Go `net/url`
when percent-encoding. -/
def upperhex : List Byte :=
  [48, 49, 50, 51, 52, 53, 54, 55, 56, 57, 65, 66, 67, 68, 69, 70]

/-- One byte of `url.QueryEscape` output: a space (byte 32) becomes the
plus sign (byte 43), any other escaped byte becomes a percent sign and
two upper-case hex digits, an unreserved byte passes through. -/
def escapeQueryByte (c : Byte) : List Byte :=
  if shouldEscapeQuery c then
    if c = 32 then [43]
    else [37, upperhex.getD (c / 16) 48, upperhex.getD (c % 16) 48]
  else [c]

/-- Go `url.QueryEscape` on a byte string. -/
def queryEscape (s : List Byte) : List Byte :=
  s.flatMap escapeQueryByte

/-- Model of `Object.urlSafeKey` (`object.go`): split the key on the
slash byte 47, apply `url.QueryEscape` to each segment, re-join with
slashes. -/
def urlSafeKey (key : List Byte) : List Byte :=
  List.intercalate [47] ((key.splitOn 47).map queryEscape)

/-- An environment whose completion POST succeeds (status 200) and whose
abort DELETE succeeds (status 204). -/
def envOK : CloseEnv :=
  { completeStatus := 200, abortStatus := 204 }

/-- Attempt outcomes where every PUT attempt fails with a distinct
transport error. -/
def attFail : Nat → Option GoErr :=
  fun i => some (GoErr.transport i)

/-- A session state whose worker recorded the error of the last failed
attempt of `attFail`. -/
def uFailed : Uploader :=
  { initUploader with uerr := some (GoErr.transport 1) }

/-- A session state already marked closed. -/
def uClosed : Uploader :=
  { initUploader with closed := true }

end S3

namespace S3

theorem goMin_le_right (a b : Nat) : goMin a b ≤ b := by
  unfold goMin; split <;> omega

theorem le_goMin {a b c : Nat} (h1 : c ≤ a) (h2 : c ≤ b) : c ≤ goMin a b := by
  unfold goMin; split <;> omega

theorem schedule_le_max : ∀ n, schedule n ≤ maxPartSize
  | 0 => by unfold schedule minPartSize maxPartSize; norm_num
  | n + 1 => goMin_le_right _ _

theorem schedule_pos : ∀ n, 0 < schedule n
  | 0 => by unfold schedule minPartSize; norm_num
  | n + 1 => by
    have h := schedule_pos n
    exact lt_of_lt_of_le h (le_goMin (Nat.le_add_right _ _) (schedule_le_max n))

theorem schedule_le_succ (n : Nat) : schedule n ≤ schedule (n + 1) :=
  le_goMin (Nat.le_add_right _ _) (schedule_le_max n)

theorem schedule_mono {m n : Nat} (h : m ≤ n) : schedule m ≤ schedule n := by
  induction n with
  | zero => simp_all
  | succ k ih =>
    rcases Nat.lt_or_ge m (k + 1) with hk | hk
    · exact le_trans (ih (by omega)) (schedule_le_succ k)
    · have : m = k + 1 := by omega
      subst this; rfl

theorem minPartSize_le_schedule : ∀ n, minPartSize ≤ schedule n := fun n =>
  schedule_mono (Nat.zero_le n)

theorem WF_initUploader : WF initUploader := by
  constructor <;> simp [initUploader, partSizes, schedule]

theorem writeStep_spec (u : Uploader) (p : List Byte) (hw : WF u) (hp : p ≠ []) :
    WF (writeStep u p).1 ∧
    (writeStep u p).1.closed = u.closed ∧
    (writeStep u p).1.uerr = u.uerr ∧
    (writeStep u p).1.aborted = u.aborted ∧
    ∃ r, 1 ≤ r ∧ allBytes (writeStep u p).1 = allBytes u ++ p.take r ∧
      (writeStep u p).2 = p.drop r := by
  obtain ⟨h1, h2, h3, h4, h5, h6, h7, h8⟩ := hw
  set u1 := if u.bufcap = 0 then allocBuf u else u with hu1
  have hd : u1.data = u.data := by rw [hu1]; split <;> simp [allocBuf]
  have hpts : u1.parts = u.parts := by rw [hu1]; split <;> simp [allocBuf]
  have hpc : u1.part = u.part := by rw [hu1]; split <;> simp [allocBuf]
  have hcl : u1.closed = u.closed := by rw [hu1]; split <;> simp [allocBuf]
  have hue : u1.uerr = u.uerr := by rw [hu1]; split <;> simp [allocBuf]
  have hab : u1.aborted = u.aborted := by rw [hu1]; split <;> simp [allocBuf]
  have hsent : u1.sent = u.sent := by rw [hu1]; split <;> simp [allocBuf]
  have hcap : u1.bufcap = schedule u.parts.length := by
    rw [hu1]; split
    · simp only [allocBuf]; exact h4 ‹_›
    · exact h3 (Nat.pos_of_ne_zero ‹_›)
  have hsz : u1.bufsz = schedule (u.parts.length + 1) := by
    rw [hu1]; split
    · simp only [allocBuf]
      rw [h4 ‹_›]
      simp [schedule]
    · exact h5 (Nat.pos_of_ne_zero ‹_›)
  have hlt : u1.data.length < u1.bufcap := by
    rw [hu1]; split
    · simp only [allocBuf]
      rw [h1 ‹_›, h4 ‹_›]
      simpa using schedule_pos u.parts.length
    · exact h2 (Nat.pos_of_ne_zero ‹_›)
  rw [hd] at hlt
  set r := Nat.min (u1.bufcap - u.data.length) p.length with hr
  have hr1 : 1 ≤ r := by
    have hp' : 1 ≤ p.length := by
      cases p with
      | nil => exact absurd rfl hp
      | cons a t => simp
    exact Nat.le_min.mpr ⟨by omega, hp'⟩
  have hrp : r ≤ p.length := Nat.min_le_right _ _
  have hrcap : r ≤ u1.bufcap - u.data.length := Nat.min_le_left _ _
  have htake : (p.take r).length = r := by simp [hrp]
  set u2 : Uploader :=
    { bufsz := u1.bufsz, bufcap := u1.bufcap, data := u.data ++ p.take r,
      parts := u.parts, part := u.part, closed := u.closed,
      aborted := u.aborted, uerr := u.uerr, sent := u.sent } with hu2
  have hd2 : u2.data.length = u.data.length + r := by simp [hu2, htake]
  have hmid : ({ u1 with data := u.data ++ p.take r } : Uploader) = u2 := by
    rw [hu2, hpts, hpc, hcl, hue, hab, hsent]
  have hws : writeStep u p = (maybeFlush u2, p.drop r) := by
    simp only [writeStep, stepFill, ← hu1, hd, ← hr, hmid]
  have hbc2 : u2.bufcap = schedule u.parts.length := by rw [hu2]; exact hcap
  have hschedpos := schedule_pos u.parts.length
  rw [hws]
  by_cases heq : u2.data.length = u2.bufcap
  · -- the buffer is exactly full: the loop body flushes
    rw [show maybeFlush u2 = flushPart u2 from by
      simp only [maybeFlush]; rw [if_pos heq]]
    have hlen2 : (u.data ++ p.take r).length = schedule u.parts.length := by
      have : u2.data.length = schedule u.parts.length := by rw [heq, hbc2]
      simpa [hu2] using this
    refine ⟨?_, by simp [flushPart, hu2], by simp [flushPart, hu2],
      by simp [flushPart, hu2], r, hr1, ?_, rfl⟩
    · constructor
      · intro _; simp [flushPart]
      · intro h; simp [flushPart] at h
      · intro h; simp [flushPart] at h
      · intro _
        simp only [flushPart, hu2]
        simp [hsz]
      · intro h; simp [flushPart] at h
      · simp only [partSizes, flushPart, hu2, List.map_append, List.map_cons,
          List.map_nil, List.length_append, List.length_cons, List.length_nil]
        rw [show (List.map (fun q => q.content.length) u.parts) = partSizes u from rfl, h6]
        rw [show u.data.length + (List.take r p).length = schedule u.parts.length from by
          simpa [List.length_append] using hlen2]
        norm_num
        rw [List.range_succ, List.map_append, List.map_cons, List.map_nil]
      · simp [flushPart, hu2, h7]
      · simp only [flushPart, hu2, List.map_append, List.map_cons, List.map_nil,
          List.length_append, List.length_cons, List.length_nil, h8, h7]
        norm_num
        rw [List.range'_concat]
        simp [Nat.add_comm]
    · simp only [allBytes, flushPart, hu2]
      simp [List.append_assoc]
  · -- the buffer is not yet full: no flush
    rw [show maybeFlush u2 = u2 from by
      simp only [maybeFlush]; rw [if_neg heq]]
    have hbcap2 : u2.bufcap = u1.bufcap := rfl
    have hlt2 : u2.data.length < u2.bufcap := by
      rw [hd2, hbcap2]
      rcases Nat.lt_or_ge (u.data.length + r) u1.bufcap with h | h
      · exact h
      · exfalso
        apply heq
        rw [hd2, hbcap2]
        omega
    refine ⟨?_, by simp [hu2], by simp [hu2], by simp [hu2], r, hr1, ?_, rfl⟩
    · constructor
      · intro h
        rw [hbcap2, hcap] at h
        omega
      · intro _; exact hlt2
      · intro _; rw [hbcap2, hcap]
      · intro h
        rw [hbcap2, hcap] at h
        omega
      · intro _
        exact hsz
      · simp only [partSizes]
        exact h6
      · exact h7
      · exact h8
    · simp only [allBytes, hu2]
      simp [List.append_assoc]

theorem writeLoop_spec : ∀ (fuel : Nat) (u : Uploader) (p : List Byte),
    WF u → p.length ≤ fuel →
    WF (writeLoop fuel u p) ∧
    allBytes (writeLoop fuel u p) = allBytes u ++ p ∧
    (writeLoop fuel u p).closed = u.closed ∧
    (writeLoop fuel u p).uerr = u.uerr ∧
    (writeLoop fuel u p).aborted = u.aborted := by
  intro fuel
  induction fuel with
  | zero =>
    intro u p hw hl
    have : p = [] := List.length_eq_zero.mp (by omega)
    subst this
    simpa [writeLoop] using hw
  | succ f ih =>
    intro u p hw hl
    cases p with
    | nil => simpa [writeLoop] using hw
    | cons b t =>
      obtain ⟨hw1, hcl, hue, hab, r, hr1, hbytes, hdrop⟩ :=
        writeStep_spec u (b :: t) hw (by simp)
      have hlen2 : ((writeStep u (b :: t)).2).length ≤ f := by
        rw [hdrop]
        simp only [List.length_drop, List.length_cons]
        simp only [List.length_cons] at hl
        omega
      obtain ⟨iw, ib, icl, iue, iab⟩ :=
        ih (writeStep u (b :: t)).1 (writeStep u (b :: t)).2 hw1 hlen2
      have hloop : writeLoop (f + 1) u (b :: t) =
          writeLoop f (writeStep u (b :: t)).1 (writeStep u (b :: t)).2 := by
        simp only [writeLoop]
      refine ⟨hloop ▸ iw, ?_, ?_, ?_, ?_⟩
      · rw [hloop, ib, hbytes, hdrop, List.append_assoc, List.take_append_drop]
      · rw [hloop, icl, hcl]
      · rw [hloop, iue, hue]
      · rw [hloop, iab, hab]

theorem write_eq (u : Uploader) (p : List Byte)
    (hcl : u.closed = false) (hue : u.uerr = none) :
    write u p = (p.length, none, writeLoop p.length u p) := by
  simp [write, hcl, hue]

theorem foldWrites_spec (chunks : List (List Byte)) :
    ∀ (u : Uploader), WF u → u.closed = false → u.uerr = none →
    WF (chunks.foldl (fun v c => (write v c).2.2) u) ∧
    allBytes (chunks.foldl (fun v c => (write v c).2.2) u)
      = allBytes u ++ chunks.flatten ∧
    (chunks.foldl (fun v c => (write v c).2.2) u).closed = false ∧
    (chunks.foldl (fun v c => (write v c).2.2) u).uerr = none ∧
    (chunks.foldl (fun v c => (write v c).2.2) u).aborted = u.aborted := by
  induction chunks with
  | nil =>
    intro u hw hcl hue
    simpa using ⟨hw, hcl, hue⟩
  | cons c cs ih =>
    intro u hw hcl hue
    obtain ⟨sw, sb, scl, sue, sab⟩ := writeLoop_spec c.length u c hw le_rfl
    have hwr : (write u c).2.2 = writeLoop c.length u c := by
      rw [write_eq u c hcl hue]
    rw [List.foldl_cons]
    obtain ⟨iw, ib, icl, iue, iab⟩ := ih ((write u c).2.2)
      (hwr ▸ sw) (by rw [hwr, scl, hcl]) (by rw [hwr, sue, hue])
    refine ⟨iw, ?_, icl, iue, ?_⟩
    · rw [ib, hwr, sb, List.append_assoc]
      simp
    · rw [iab, hwr, sab]

theorem runWrites_spec (chunks : List (List Byte)) :
    WF (runWrites chunks) ∧
    allBytes (runWrites chunks) = chunks.flatten ∧
    (runWrites chunks).closed = false ∧
    (runWrites chunks).uerr = none ∧
    (runWrites chunks).aborted = false := by
  obtain ⟨a, b, c, d, e⟩ := foldWrites_spec chunks initUploader WF_initUploader rfl rfl
  rw [show runWrites chunks = List.foldl (fun v c => (write v c).2.2) initUploader chunks
    from rfl]
  refine ⟨a, ?_, c, d, e⟩
  show allBytes (List.foldl (fun v c => (write v c).2.2) initUploader chunks) = chunks.flatten
  rw [b]
  simp [allBytes, initUploader]

theorem close_result_state (env : CloseEnv) (u : Uploader) (hcl : u.closed = false) :
    (close env u).2.1 =
      { (if 0 < u.bufcap then flushPart u else u) with closed := true } := by
  simp only [close]
  rw [if_neg (by simp [hcl])]
  split <;> split <;> try rfl
  all_goals split <;> rfl

theorem close_state (env : CloseEnv) (u : Uploader) (hw : WF u)
    (hcl : u.closed = false) :
    ((close env u).2.1.parts.map Part.PartNumber)
      = List.range' 1 (close env u).2.1.parts.length ∧
    (((close env u).2.1.parts.map Part.content).flatten = allBytes u) ∧
    ((partSizes (close env u).2.1).dropLast
      = (List.range ((close env u).2.1.parts.length - 1)).map schedule) ∧
    u.parts.length ≤ (close env u).2.1.parts.length ∧
    (close env u).2.1.parts.length ≤ u.parts.length + 1 ∧
    (partSizes (close env u).2.1).sum = (allBytes u).length ∧
    (close env u).2.1.closed = true := by
  obtain ⟨h1, h2, h3, h4, h5, h6, h7, h8⟩ := hw
  rw [close_result_state env u hcl]
  by_cases hb : 0 < u.bufcap
  · rw [if_pos hb]
    have hnums : (flushPart u).parts.map Part.PartNumber
        = List.range' 1 ((flushPart u).parts.length) := by
      simp only [flushPart, List.map_append, List.map_cons, List.map_nil,
        List.length_append, List.length_cons, List.length_nil, h8, h7]
      norm_num
      rw [List.range'_concat]
      simp [Nat.add_comm]
    have hsizes : partSizes (flushPart u) = partSizes u ++ [u.data.length] := by
      simp [partSizes, flushPart]
    refine ⟨?_, ?_, ?_, ?_, ?_, ?_, rfl⟩
    · simpa using hnums
    · simp only [flushPart, List.map_append, List.map_cons, List.map_nil,
        List.flatten_append, List.flatten_cons, List.flatten_nil, allBytes]
      simp
    · show (partSizes (flushPart u)).dropLast = _
      rw [hsizes, List.dropLast_concat, h6]
      simp [flushPart]
    · simp [flushPart]
    · simp [flushPart]
    · show (partSizes (flushPart u)).sum = _
      rw [hsizes, List.sum_append]
      simp only [allBytes, List.length_append]
      have : ((u.parts.map Part.content).flatten).length = (partSizes u).sum := by
        rw [List.length_flatten, List.map_map]
        rfl
      simp [this]
  · rw [if_neg hb]
    have hb0 : u.bufcap = 0 := by omega
    have hdata : u.data = [] := h1 hb0
    refine ⟨by simpa using h8, ?_, ?_, by simp, by simp, ?_, rfl⟩
    · simp [allBytes, hdata]
    · show (partSizes u).dropLast = _
      rw [h6]
      cases hn : u.parts.length with
      | zero => simp
      | succ m =>
        rw [List.range_succ, List.map_append, List.map_cons, List.map_nil,
          List.dropLast_concat]
        simp
    · show (partSizes u).sum = _
      simp only [allBytes, hdata, List.append_nil]
      rw [List.length_flatten, List.map_map]
      rfl

set_option maxRecDepth 10000 in
theorem schedIter_10000 :
    schedStep^[10000] (5242880, 0) = (2147483647, 10692918557686) := by
  have t0 : schedStep^[250] (5242880, 0) = (6731018, 1488254468) := by decide
  have t1 : schedStep^[250] (6731018, 1488254468) = (8641571, 3398937269) := by decide
  have t2 : schedStep^[250] (8641571, 3398937269) = (11094482, 5851961495) := by decide
  have t3 : schedStep^[250] (11094482, 5851961495) = (14243675, 9001280159) := by decide
  have t4 : schedStep^[250] (14243675, 9001280159) = (18286812, 13044544058) := by decide
  have t5 : schedStep^[250] (18286812, 13044544058) = (23477661, 18235513910) := by decide
  have t6 : schedStep^[250] (23477661, 18235513910) = (30141997, 24899982822) := by decide
  have t7 : schedStep^[250] (30141997, 24899982822) = (38698116, 33456224670) := by decide
  have t8 : schedStep^[250] (38698116, 33456224670) = (49683008, 44441248570) := by decide
  have t9 : schedStep^[250] (49683008, 44441248570) = (63786137, 58544500930) := by decide
  have t10 : schedStep^[250] (63786137, 58544500930) = (81892650, 76651137865) := by decide
  have t11 : schedStep^[250] (81892650, 76651137865) = (105138974, 99897581080) := by decide
  have t12 : schedStep^[250] (105138974, 99897581080) = (134984111, 129742842713) := by decide
  have t13 : schedStep^[250] (134984111, 129742842713) = (173301241, 168060094965) := by decide
  have t14 : schedStep^[250] (173301241, 168060094965) = (222495266, 217254240950) := by decide
  have t15 : schedStep^[250] (222495266, 217254240950) = (285653742, 280412848222) := by decide
  have t16 : schedStep^[250] (285653742, 280412848222) = (366740702, 361499938201) := by decide
  have t17 : schedStep^[250] (366740702, 361499938201) = (470845427, 465604782538) := by decide
  have t18 : schedStep^[250] (470845427, 465604782538) = (604501825, 599261315993) := by decide
  have t19 : schedStep^[250] (604501825, 599261315993) = (776098613, 770858228467) := by decide
  have t20 : schedStep^[250] (776098613, 770858228467) = (996405721, 991165466887) := by decide
  have t21 : schedStep^[250] (996405721, 991165466887) = (1279250315, 1274010189876) := by decide
  have t22 : schedStep^[250] (1279250315, 1274010189876) = (1642384596, 1637144601809) := by decide
  have t23 : schedStep^[250] (1642384596, 1637144601809) = (2108600002, 2103360136973) := by decide
  have t24 : schedStep^[250] (2108600002, 2103360136973) = (2147483647, 2639854881436) := by decide
  have t25 : schedStep^[250] (2147483647, 2639854881436) = (2147483647, 3176725793186) := by decide
  have t26 : schedStep^[250] (2147483647, 3176725793186) = (2147483647, 3713596704936) := by decide
  have t27 : schedStep^[250] (2147483647, 3713596704936) = (2147483647, 4250467616686) := by decide
  have t28 : schedStep^[250] (2147483647, 4250467616686) = (2147483647, 4787338528436) := by decide
  have t29 : schedStep^[250] (2147483647, 4787338528436) = (2147483647, 5324209440186) := by decide
  have t30 : schedStep^[250] (2147483647, 5324209440186) = (2147483647, 5861080351936) := by decide
  have t31 : schedStep^[250] (2147483647, 5861080351936) = (2147483647, 6397951263686) := by decide
  have t32 : schedStep^[250] (2147483647, 6397951263686) = (2147483647, 6934822175436) := by decide
  have t33 : schedStep^[250] (2147483647, 6934822175436) = (2147483647, 7471693087186) := by decide
  have t34 : schedStep^[250] (2147483647, 7471693087186) = (2147483647, 8008563998936) := by decide
  have t35 : schedStep^[250] (2147483647, 8008563998936) = (2147483647, 8545434910686) := by decide
  have t36 : schedStep^[250] (2147483647, 8545434910686) = (2147483647, 9082305822436) := by decide
  have t37 : schedStep^[250] (2147483647, 9082305822436) = (2147483647, 9619176734186) := by decide
  have t38 : schedStep^[250] (2147483647, 9619176734186) = (2147483647, 10156047645936) := by decide
  have t39 : schedStep^[250] (2147483647, 10156047645936) = (2147483647, 10692918557686) := by decide
  have c1 := t0
  have c2 : schedStep^[500] (5242880, 0) = (8641571, 3398937269) := by
    rw [show (500 : Nat) = 250 + 250 from rfl, Function.iterate_add_apply, c1, t1]
  have c3 : schedStep^[750] (5242880, 0) = (11094482, 5851961495) := by
    rw [show (750 : Nat) = 250 + 500 from rfl, Function.iterate_add_apply, c2, t2]
  have c4 : schedStep^[1000] (5242880, 0) = (14243675, 9001280159) := by
    rw [show (1000 : Nat) = 250 + 750 from rfl, Function.iterate_add_apply, c3, t3]
  have c5 : schedStep^[1250] (5242880, 0) = (18286812, 13044544058) := by
    rw [show (1250 : Nat) = 250 + 1000 from rfl, Function.iterate_add_apply, c4, t4]
  have c6 : schedStep^[1500] (5242880, 0) = (23477661, 18235513910) := by
    rw [show (1500 : Nat) = 250 + 1250 from rfl, Function.iterate_add_apply, c5, t5]
  have c7 : schedStep^[1750] (5242880, 0) = (30141997, 24899982822) := by
    rw [show (1750 : Nat) = 250 + 1500 from rfl, Function.iterate_add_apply, c6, t6]
  have c8 : schedStep^[2000] (5242880, 0) = (38698116, 33456224670) := by
    rw [show (2000 : Nat) = 250 + 1750 from rfl, Function.iterate_add_apply, c7, t7]
  have c9 : schedStep^[2250] (5242880, 0) = (49683008, 44441248570) := by
    rw [show (2250 : Nat) = 250 + 2000 from rfl, Function.iterate_add_apply, c8, t8]
  have c10 : schedStep^[2500] (5242880, 0) = (63786137, 58544500930) := by
    rw [show (2500 : Nat) = 250 + 2250 from rfl, Function.iterate_add_apply, c9, t9]
  have c11 : schedStep^[2750] (5242880, 0) = (81892650, 76651137865) := by
    rw [show (2750 : Nat) = 250 + 2500 from rfl, Function.iterate_add_apply, c10, t10]
  have c12 : schedStep^[3000] (5242880, 0) = (105138974, 99897581080) := by
    rw [show (3000 : Nat) = 250 + 2750 from rfl, Function.iterate_add_apply, c11, t11]
  have c13 : schedStep^[3250] (5242880, 0) = (134984111, 129742842713) := by
    rw [show (3250 : Nat) = 250 + 3000 from rfl, Function.iterate_add_apply, c12, t12]
  have c14 : schedStep^[3500] (5242880, 0) = (173301241, 168060094965) := by
    rw [show (3500 : Nat) = 250 + 3250 from rfl, Function.iterate_add_apply, c13, t13]
  have c15 : schedStep^[3750] (5242880, 0) = (222495266, 217254240950) := by
    rw [show (3750 : Nat) = 250 + 3500 from rfl, Function.iterate_add_apply, c14, t14]
  have c16 : schedStep^[4000] (5242880, 0) = (285653742, 280412848222) := by
    rw [show (4000 : Nat) = 250 + 3750 from rfl, Function.iterate_add_apply, c15, t15]
  have c17 : schedStep^[4250] (5242880, 0) = (366740702, 361499938201) := by
    rw [show (4250 : Nat) = 250 + 4000 from rfl, Function.iterate_add_apply, c16, t16]
  have c18 : schedStep^[4500] (5242880, 0) = (470845427, 465604782538) := by
    rw [show (4500 : Nat) = 250 + 4250 from rfl, Function.iterate_add_apply, c17, t17]
  have c19 : schedStep^[4750] (5242880, 0) = (604501825, 599261315993) := by
    rw [show (4750 : Nat) = 250 + 4500 from rfl, Function.iterate_add_apply, c18, t18]
  have c20 : schedStep^[5000] (5242880, 0) = (776098613, 770858228467) := by
    rw [show (5000 : Nat) = 250 + 4750 from rfl, Function.iterate_add_apply, c19, t19]
  have c21 : schedStep^[5250] (5242880, 0) = (996405721, 991165466887) := by
    rw [show (5250 : Nat) = 250 + 5000 from rfl, Function.iterate_add_apply, c20, t20]
  have c22 : schedStep^[5500] (5242880, 0) = (1279250315, 1274010189876) := by
    rw [show (5500 : Nat) = 250 + 5250 from rfl, Function.iterate_add_apply, c21, t21]
  have c23 : schedStep^[5750] (5242880, 0) = (1642384596, 1637144601809) := by
    rw [show (5750 : Nat) = 250 + 5500 from rfl, Function.iterate_add_apply, c22, t22]
  have c24 : schedStep^[6000] (5242880, 0) = (2108600002, 2103360136973) := by
    rw [show (6000 : Nat) = 250 + 5750 from rfl, Function.iterate_add_apply, c23, t23]
  have c25 : schedStep^[6250] (5242880, 0) = (2147483647, 2639854881436) := by
    rw [show (6250 : Nat) = 250 + 6000 from rfl, Function.iterate_add_apply, c24, t24]
  have c26 : schedStep^[6500] (5242880, 0) = (2147483647, 3176725793186) := by
    rw [show (6500 : Nat) = 250 + 6250 from rfl, Function.iterate_add_apply, c25, t25]
  have c27 : schedStep^[6750] (5242880, 0) = (2147483647, 3713596704936) := by
    rw [show (6750 : Nat) = 250 + 6500 from rfl, Function.iterate_add_apply, c26, t26]
  have c28 : schedStep^[7000] (5242880, 0) = (2147483647, 4250467616686) := by
    rw [show (7000 : Nat) = 250 + 6750 from rfl, Function.iterate_add_apply, c27, t27]
  have c29 : schedStep^[7250] (5242880, 0) = (2147483647, 4787338528436) := by
    rw [show (7250 : Nat) = 250 + 7000 from rfl, Function.iterate_add_apply, c28, t28]
  have c30 : schedStep^[7500] (5242880, 0) = (2147483647, 5324209440186) := by
    rw [show (7500 : Nat) = 250 + 7250 from rfl, Function.iterate_add_apply, c29, t29]
  have c31 : schedStep^[7750] (5242880, 0) = (2147483647, 5861080351936) := by
    rw [show (7750 : Nat) = 250 + 7500 from rfl, Function.iterate_add_apply, c30, t30]
  have c32 : schedStep^[8000] (5242880, 0) = (2147483647, 6397951263686) := by
    rw [show (8000 : Nat) = 250 + 7750 from rfl, Function.iterate_add_apply, c31, t31]
  have c33 : schedStep^[8250] (5242880, 0) = (2147483647, 6934822175436) := by
    rw [show (8250 : Nat) = 250 + 8000 from rfl, Function.iterate_add_apply, c32, t32]
  have c34 : schedStep^[8500] (5242880, 0) = (2147483647, 7471693087186) := by
    rw [show (8500 : Nat) = 250 + 8250 from rfl, Function.iterate_add_apply, c33, t33]
  have c35 : schedStep^[8750] (5242880, 0) = (2147483647, 8008563998936) := by
    rw [show (8750 : Nat) = 250 + 8500 from rfl, Function.iterate_add_apply, c34, t34]
  have c36 : schedStep^[9000] (5242880, 0) = (2147483647, 8545434910686) := by
    rw [show (9000 : Nat) = 250 + 8750 from rfl, Function.iterate_add_apply, c35, t35]
  have c37 : schedStep^[9250] (5242880, 0) = (2147483647, 9082305822436) := by
    rw [show (9250 : Nat) = 250 + 9000 from rfl, Function.iterate_add_apply, c36, t36]
  have c38 : schedStep^[9500] (5242880, 0) = (2147483647, 9619176734186) := by
    rw [show (9500 : Nat) = 250 + 9250 from rfl, Function.iterate_add_apply, c37, t37]
  have c39 : schedStep^[9750] (5242880, 0) = (2147483647, 10156047645936) := by
    rw [show (9750 : Nat) = 250 + 9500 from rfl, Function.iterate_add_apply, c38, t38]
  have c40 : schedStep^[10000] (5242880, 0) = (2147483647, 10692918557686) := by
    rw [show (10000 : Nat) = 250 + 9750 from rfl, Function.iterate_add_apply, c39, t39]
  exact c40

theorem iter_sum : ∀ (n k acc : Nat),
    (schedStep^[n] (schedule k, acc)).2
      = acc + ((List.range' k n).map schedule).sum := by
  intro n
  induction n with
  | zero => intro k acc; simp
  | succ m ih =>
    intro k acc
    rw [Function.iterate_succ_apply]
    have hs : schedStep (schedule k, acc) = (schedule (k + 1), acc + schedule k) := by
      show (goMin _ _, _) = _
      congr 1
    rw [hs, ih (k + 1) (acc + schedule k), List.range'_succ]
    simp [Nat.add_assoc]

theorem sum_schedule_maxNPart :
    maxObjSize < ((List.range maxNPart).map schedule).sum := by
  have h := iter_sum maxNPart 0 0
  have h2 : (schedStep^[maxNPart] (schedule 0, 0)).2 = 10692918557686 := by
    rw [show schedule 0 = (5242880 : Nat) from rfl,
      show maxNPart = (10000 : Nat) from rfl, schedIter_10000]
  rw [h] at h2
  rw [List.range_eq_range']
  rw [show maxObjSize = (5497558138880 : Nat) from rfl]
  omega

theorem sum_take_le (l : List Nat) (n : Nat) : (l.take n).sum ≤ l.sum := by
  conv_rhs => rw [← List.take_append_drop n l]
  rw [List.sum_append]
  omega

theorem sum_dropLast_le (l : List Nat) : l.dropLast.sum ≤ l.sum := by
  rw [List.dropLast_eq_take]
  exact sum_take_le l _

theorem sum_sched_range_mono {m n : Nat} (h : m ≤ n) :
    ((List.range m).map schedule).sum ≤ ((List.range n).map schedule).sum := by
  have ht : (List.range n).take m = List.range m := by
    rw [List.take_range]
    simp [Nat.min_eq_left h]
  rw [← ht, List.map_take]
  exact sum_take_le _ _

theorem setTag_map_num (n : Nat) (t : String) (ps : List Part) :
    (setTag n t ps).map Part.PartNumber = ps.map Part.PartNumber := by
  simp only [setTag, List.map_map]
  congr 1
  funext q
  by_cases h : q.PartNumber = n <;> simp [h]

theorem applyTags_map_num : ∀ (order : List (Nat × String)) (ps : List Part),
    (applyTags order ps).map Part.PartNumber = ps.map Part.PartNumber := by
  intro order
  induction order with
  | nil => intro ps; rfl
  | cons o os ih =>
    intro ps
    show (applyTags os (setTag o.1 o.2 ps)).map Part.PartNumber = _
    rw [ih, setTag_map_num]

theorem retryUploadPart_closed_form (content : List Byte)
    (att : Nat → Option GoErr) :
    retryUploadPart content att =
      match att 0 with
      | none => ([content], none)
      | some _ => ([content, content], att 1) := by
  cases h0 : att 0 with
  | none =>
    simp [retryUploadPart, nTry, retryAux, seekStart, readAll, h0]
  | some e =>
    cases h1 : att 1 with
    | none => simp [retryUploadPart, nTry, retryAux, seekStart, readAll, h0, h1]
    | some e1 => simp [retryUploadPart, nTry, retryAux, seekStart, readAll, h0, h1]

theorem close_err (env : CloseEnv) (u : Uploader) (e : GoErr)
    (hcl : u.closed = false) (he : u.uerr = some e) :
    close env u = (some e,
      { (if 0 < u.bufcap then flushPart u else u) with closed := true },
      [Action.abortReq]) := by
  have hue : (if 0 < u.bufcap then flushPart u else u).uerr = some e := by
    split <;> simp [flushPart, he]
  simp only [close]
  rw [if_neg (by simp [hcl])]
  rw [if_pos (by simp [hue])]
  simp [hue]

theorem putPartETag_of_two_le (s : List Byte) (h : 2 ≤ s.length) :
    putPartETag s = some ((s.drop 1).dropLast) := by
  unfold putPartETag goSlice
  rw [if_pos (by constructor <;> [omega; constructor <;> omega])]
  congr 1
  have h1 : ((s.length : Int) - 1).toNat = s.length - 1 := by omega
  rw [h1]
  rw [List.drop_take]
  rw [List.dropLast_eq_take, List.length_drop]
  norm_num

theorem upperhex_getD_ne (i : Nat) : upperhex.getD i 48 ≠ 43 := by
  rcases Nat.lt_or_ge i 16 with h | h
  · interval_cases i <;> decide
  · rw [List.getD_eq_default]
    · decide
    · rw [show upperhex.length = 16 from rfl]
      omega

theorem mem_escapeQueryByte (c : Byte) : 43 ∈ escapeQueryByte c ↔ c = 32 := by
  by_cases h32 : c = 32
  · subst h32; decide
  · simp only [h32, iff_false]
    intro hmem
    unfold escapeQueryByte at hmem
    by_cases h : shouldEscapeQuery c = true
    · rw [if_pos h, if_neg h32] at hmem
      rcases List.mem_cons.mp hmem with h37 | hmem2
      · exact absurd h37 (by decide)
      · rcases List.mem_cons.mp hmem2 with hh | hmem3
        · exact upperhex_getD_ne _ hh.symm
        · rcases List.mem_cons.mp hmem3 with hh | hmem4
          · exact upperhex_getD_ne _ hh.symm
          · simp at hmem4
    · rw [if_neg h] at hmem
      rcases List.mem_singleton.mp hmem with rfl
      exact h (by decide)

theorem mem_queryEscape (s : List Byte) : 43 ∈ queryEscape s ↔ 32 ∈ s := by
  rw [queryEscape, List.mem_flatMap]
  constructor
  · rintro ⟨b, hb, hmem⟩
    rw [mem_escapeQueryByte] at hmem
    subst hmem
    exact hb
  · intro h32
    exact ⟨32, h32, (mem_escapeQueryByte 32).mpr rfl⟩

theorem mem_intercalate_sep {b sep : Byte} (hb : b ≠ sep) :
    ∀ (l : List (List Byte)),
      b ∈ List.intercalate [sep] l ↔ ∃ c ∈ l, b ∈ c := by
  intro l
  induction l with
  | nil => simp [List.intercalate]
  | cons x xs ih =>
    cases xs with
    | nil => simp [List.intercalate]
    | cons y ys =>
      have hstep : List.intercalate [sep] (x :: y :: ys)
          = x ++ [sep] ++ List.intercalate [sep] (y :: ys) := by
        simp [List.intercalate, List.intersperse]
      rw [hstep]
      simp only [List.mem_append, List.mem_singleton, ih]
      constructor
      · rintro ((hx | hsep) | ⟨c, hc, hmem⟩)
        · exact ⟨x, by simp, hx⟩
        · exact absurd hsep hb
        · exact ⟨c, by simp [hc], hmem⟩
      · rintro ⟨c, hc, hmem⟩
        rcases List.mem_cons.mp hc with rfl | hc'
        · exact Or.inl (Or.inl hmem)
        · exact Or.inr ⟨c, hc', hmem⟩

/-- C1: For every input byte sequence, however it is split into successive
`Write` calls of arbitrary chunk sizes, the parts produced by the uploader
carry strictly ascending part numbers, and the concatenation of their byte
contents in that (ascending part-number) order equals the original input
byte sequence exactly. -/
theorem c1_write_roundtrip (chunks : List (List Byte)) (env : CloseEnv) :
    ((finalParts env chunks).map Part.PartNumber).Pairwise (· < ·) ∧
    ((finalParts env chunks).map Part.content).flatten = chunks.flatten := by
  obtain ⟨hw, hbytes, hcl, _, _⟩ := runWrites_spec chunks
  obtain ⟨hnums, hflat, _, _, _, _, _⟩ := close_state env (runWrites chunks) hw hcl
  have hfp : finalParts env chunks = (close env (runWrites chunks)).2.1.parts := rfl
  constructor
  · rw [hfp, hnums]
    exact List.pairwise_lt_range' _ _
  · rw [hfp, hflat, hbytes]

/-- C2: In every session the assigned part numbers form the contiguous run
1, 2, ..., k (no duplicates, no gaps), and the completion manifest (the
`u.xml.Part` sequence marshalled in `Close`) lists them in exactly that
ascending order, whatever order the individual part uploads record their
entity tags in. -/
theorem c2_manifest_order (chunks : List (List Byte)) (env : CloseEnv)
    (order : List (Nat × String)) :
    (applyTags order (finalParts env chunks)).map Part.PartNumber
      = List.range' 1 (applyTags order (finalParts env chunks)).length := by
  obtain ⟨hw, _, hcl, _, _⟩ := runWrites_spec chunks
  obtain ⟨hnums, _, _, _, _, _, _⟩ := close_state env (runWrites chunks) hw hcl
  have hfp : finalParts env chunks = (close env (runWrites chunks)).2.1.parts := rfl
  have hlen : (applyTags order (finalParts env chunks)).length
      = (finalParts env chunks).length := by
    have := applyTags_map_num order (finalParts env chunks)
    have h2 := congrArg List.length this
    simpa using h2
  rw [applyTags_map_num, hlen, hfp, hnums]

/-- C6: the target buffer capacity starts at `minPartSize` and after each
allocation grows by `size / 1000` (integer division), capped at
`maxPartSize`; consequently the sizes of the non-final parts of a session
are exactly the successive schedule values, hence monotonically
non-decreasing and within `[minPartSize, maxPartSize]`. -/
theorem c6_part_size_growth (chunks : List (List Byte)) (env : CloseEnv)
    (i j : Nat) (hij : i ≤ j) :
    (partSizes (finalState env chunks)).dropLast
      = (List.range ((finalState env chunks).parts.length - 1)).map schedule ∧
    schedule 0 = minPartSize ∧
    schedule (i + 1) = goMin (schedule i + schedule i / 1000) maxPartSize ∧
    schedule i ≤ schedule j ∧
    minPartSize ≤ schedule i ∧ schedule i ≤ maxPartSize := by
  obtain ⟨hw, _, hcl, _, _⟩ := runWrites_spec chunks
  obtain ⟨_, _, hdrop, _, _, _, _⟩ := close_state env (runWrites chunks) hw hcl
  exact ⟨hdrop, rfl, rfl, schedule_mono hij, minPartSize_le_schedule i,
    schedule_le_max i⟩

/-- C7: for every input whose total length is at most `maxObjSize` (5 TiB),
the growing part-size schedule keeps the total part count at or below the
store's limit of `maxNPart = 10000` parts. -/
theorem c7_part_count_bound (chunks : List (List Byte)) (env : CloseEnv)
    (h : chunks.flatten.length ≤ maxObjSize) :
    (finalParts env chunks).length ≤ maxNPart := by
  obtain ⟨hw, hbytes, hcl, _, _⟩ := runWrites_spec chunks
  obtain ⟨_, _, hdrop, _, _, hsum, _⟩ := close_state env (runWrites chunks) hw hcl
  by_contra hgt
  push_neg at hgt
  have hfp : finalParts env chunks = (close env (runWrites chunks)).2.1.parts := rfl
  rw [hfp] at hgt
  have h1 : ((List.range ((close env (runWrites chunks)).2.1.parts.length - 1)).map
      schedule).sum ≤ (partSizes ((close env (runWrites chunks)).2.1)).sum := by
    rw [← hdrop]
    exact sum_dropLast_le _
  have h2 : ((List.range maxNPart).map schedule).sum
      ≤ ((List.range ((close env (runWrites chunks)).2.1.parts.length - 1)).map
        schedule).sum :=
    sum_sched_range_mono (by omega)
  have h3 := sum_schedule_maxNPart
  rw [hsum, hbytes] at h1
  omega

/-- C4: for every part the uploader makes at most `nTry = 2` PUT attempts
(and at least one); each attempt first seeks the reader back to offset 0,
so the bytes sent by every attempt are the full buffer; the per-part error
is assigned to the session error exactly when every attempt fails, and it
is then the error of the last attempt (there is no sleep between attempts
anywhere in the loop). -/
theorem c4_retry_policy (content : List Byte) (att : Nat → Option GoErr) :
    1 ≤ (retryUploadPart content att).1.length ∧
    (retryUploadPart content att).1.length ≤ nTry ∧
    (retryUploadPart content att).1
      = List.replicate (retryUploadPart content att).1.length content ∧
    (retryUploadPart content att).2
      = (if att 0 = none ∨ att 1 = none then none else att 1) := by
  rw [retryUploadPart_closed_form]
  cases h0 : att 0 with
  | none => simp [nTry, h0]
  | some e =>
    cases h1 : att 1 with
    | none => simp [nTry, h0, List.replicate]
    | some e1 => simp [nTry, h0, h1, List.replicate]

/-- C3: when a part upload exhausts its retry budget (every attempt
fails), the error recorded in `u.err` is the failing part's last attempt
error; `Close` then issues the abort DELETE request and returns exactly
that error to the caller, whatever the outcome of the abort request
itself (the environments `env` and `env2` may differ arbitrarily, in
particular in the abort response). -/
theorem c3_abort_reports_part_error (att : Nat → Option GoErr)
    (e0 e1 : GoErr) (content : List Byte) (u : Uploader)
    (env env2 : CloseEnv)
    (h0 : att 0 = some e0) (h1 : att 1 = some e1)
    (hrec : u.uerr = (retryUploadPart content att).2)
    (hcl : u.closed = false) :
    u.uerr = some e1 ∧
    (close env u).1 = some e1 ∧
    Action.abortReq ∈ (close env u).2.2 ∧
    (close env u).1 = (close env2 u).1 ∧
    (abortU env u).1 = some e1 := by
  have herr : u.uerr = some e1 := by
    rw [hrec, retryUploadPart_closed_form, h0, h1]
  have herr2 : ({ u with aborted := true } : Uploader).uerr = some e1 := herr
  refine ⟨herr, ?_, ?_, ?_, ?_⟩
  · rw [close_err env u e1 hcl herr]
  · rw [close_err env u e1 hcl herr]
    simp
  · rw [close_err env u e1 hcl herr, close_err env2 u e1 hcl herr]
  · show (close env { u with aborted := true }).1 = some e1
    rw [close_err env { u with aborted := true } e1 hcl herr2]

/-- C5: once the session is marked closed, every further `Write` fails
immediately with `EINVAL` returning 0 bytes and leaves the state untouched
(no buffering, no part handed to a worker), every further `Close` fails
immediately with `EINVAL` issuing no request, and any `Close` leaves the
session closed — it never re-opens. -/
theorem c5_closed_guard (u v : Uploader) (p : List Byte)
    (env env2 : CloseEnv) (h : u.closed = true) :
    write u p = (0, some GoErr.einval, u) ∧
    close env u = (some GoErr.einval, u, []) ∧
    ((close env2 v).2.1).closed = true := by
  refine ⟨by simp [write, h], by simp [close, h], ?_⟩
  by_cases hv : v.closed = true
  · simp [close, hv]
  · rw [close_result_state env2 v (by simpa using hv)]

/-- C10: on an HTTP 200 response whose ETag header value is empty or
shorter than two bytes, the slice `s[1 : len(s)-1]` in `uploader.putPart`
is out of bounds and the call panics instead of returning an error; the
extraction is total (returns the sliced tag) precisely when the header
value has at least two bytes. -/
theorem c10_etag_slice_panics (hdr : List Byte) :
    (putPartGo 200 hdr = PutOutcome.panicked ↔ hdr.length < 2) ∧
    (2 ≤ hdr.length →
      putPartGo 200 hdr = PutOutcome.ok ((hdr.drop 1).dropLast)) := by
  constructor
  · constructor
    · intro hp
      by_contra hlen
      push_neg at hlen
      rw [show putPartGo 200 hdr = (match putPartETag hdr with
            | none => PutOutcome.panicked
            | some t => PutOutcome.ok t) from by simp [putPartGo],
        putPartETag_of_two_le hdr hlen] at hp
      exact absurd hp (by simp)
    · intro hlen
      have hnone : putPartETag hdr = none := by
        unfold putPartETag goSlice
        rw [if_neg]
        intro ⟨_, h2, _⟩
        omega
      simp [putPartGo, hnone]
  · intro hlen
    simp [putPartGo, putPartETag_of_two_le hdr hlen]

/-- C8 counterexample: for the header value a space, a quote, "abc", a
quote, a space (bytes [32,34,97,98,99,34,32]), `uploader.putPart` records
the slice [34,97,98,99,34] — the quotes are still there — whereas the
claim (strip surrounding double quotes and surrounding whitespace, as the
`writer` variant's trim does) demands [97,98,99].  The claim is false of
the code at this input. -/
theorem c8_cex :
    putPartETag [32, 34, 97, 98, 99, 34, 32] = some [34, 97, 98, 99, 34] ∧
    trimCutset [32, 34] [32, 34, 97, 98, 99, 34, 32] = [97, 98, 99] ∧
    putPartETag [32, 34, 97, 98, 99, 34, 32]
      ≠ some (trimCutset [32, 34] [32, 34, 97, 98, 99, 34, 32]) := by
  refine ⟨?_, by decide, ?_⟩ <;> decide

/-- C8 amended: on HTTP 200 the entity tag recorded by `uploader.putPart`
equals the ETag header value with exactly its first and its last byte
removed; when the value is a double-quoted string with no surrounding
whitespace (the normal wire format) this coincides with stripping the
quotes, but surrounding whitespace is never stripped. -/
theorem c8_etag_recorded (s m : List Byte) (h : 2 ≤ s.length) :
    putPartGo 200 s = PutOutcome.ok ((s.drop 1).dropLast) ∧
    putPartGo 200 (34 :: m ++ [34]) = PutOutcome.ok m := by
  constructor
  · simp [putPartGo, putPartETag_of_two_le s h]
  · have h2 : 2 ≤ (34 :: m ++ [34] : List Byte).length := by simp
    rw [show putPartGo 200 (34 :: m ++ [34])
        = (match putPartETag (34 :: m ++ [34]) with
           | none => PutOutcome.panicked
           | some t => PutOutcome.ok t) from by simp [putPartGo]]
    rw [putPartETag_of_two_le _ h2]
    simp

/-- C9 counterexample: `urlSafeKey` on the key "a b" (bytes [97,32,98])
produces "a+b" ([97,43,98]) — the space is encoded as `+`, not as the
"%20" ([37,50,48]) the claim demands ("a%20b" = [97,37,50,48,98]). -/
theorem c9_cex :
    urlSafeKey [97, 32, 98] = [97, 43, 98] ∧
    ([97, 43, 98] : List Byte) ≠ [97, 37, 50, 48, 98] := by
  refine ⟨by decide, by decide⟩

/-- C9 amended: the canonical path of `Object.urlSafeKey` splits the key
on `/` and query-escapes each segment individually, and a space is always
encoded as `+` — a `+` occurs in the output exactly when the key contains
a space, and the key "a b" becomes "a+b" (never "a%20b"). -/
theorem c9_url_safe_key (key : List Byte) :
    (43 ∈ urlSafeKey key ↔ 32 ∈ key) ∧
    urlSafeKey [97, 32, 98] = [97, 43, 98] := by
  constructor
  · rw [urlSafeKey, mem_intercalate_sep (by decide)]
    constructor
    · rintro ⟨c, hc, hmem⟩
      obtain ⟨seg, hseg, rfl⟩ := List.mem_map.mp hc
      have h32 : 32 ∈ seg := (mem_queryEscape seg).mp hmem
      have hkey : List.intercalate [47] (key.splitOn 47) = key :=
        List.intercalate_splitOn key 47
      rw [← hkey, mem_intercalate_sep (by decide)]
      exact ⟨seg, hseg, h32⟩
    · intro h32
      have hkey : List.intercalate [47] (key.splitOn 47) = key :=
        List.intercalate_splitOn key 47
      rw [← hkey, mem_intercalate_sep (by decide)] at h32
      obtain ⟨seg, hseg, hmem⟩ := h32
      exact ⟨queryEscape seg, List.mem_map_of_mem _ hseg,
        (mem_queryEscape seg).mpr hmem⟩
  · decide

end S3

namespace S3

/-- Witness for C3 at concrete inputs: two failing attempts with errors
`transport 0` and `transport 1`, the session `uFailed` that recorded the
retry result, and two environments differing in both response statuses. -/
theorem c3_witness :
    uFailed.uerr = some (GoErr.transport 1) ∧
    (close envOK uFailed).1 = some (GoErr.transport 1) ∧
    Action.abortReq ∈ (close envOK uFailed).2.2 ∧
    (close envOK uFailed).1 = (close { completeStatus := 500, abortStatus := 500 } uFailed).1 ∧
    (abortU envOK uFailed).1 = some (GoErr.transport 1) :=
  c3_abort_reports_part_error attFail (GoErr.transport 0) (GoErr.transport 1)
    [7] uFailed envOK { completeStatus := 500, abortStatus := 500 }
    rfl rfl (by decide) rfl

/-- Witness for C5 at concrete inputs: the closed session `uClosed`, a
one-byte write, and two environments. -/
theorem c5_witness :
    write uClosed [1] = (0, some GoErr.einval, uClosed) ∧
    close envOK uClosed = (some GoErr.einval, uClosed, []) ∧
    ((close { completeStatus := 500, abortStatus := 500 } initUploader).2.1).closed = true :=
  c5_closed_guard uClosed initUploader [1] envOK
    { completeStatus := 500, abortStatus := 500 } rfl

/-- Witness for C6 at concrete inputs: the empty write sequence and the
schedule indices 0 ≤ 1. -/
theorem c6_witness :
    (0 : Nat) ≤ 1 ∧
    ((partSizes (finalState envOK [])).dropLast
        = (List.range ((finalState envOK []).parts.length - 1)).map schedule ∧
      schedule 0 = minPartSize ∧
      schedule (0 + 1) = goMin (schedule 0 + schedule 0 / 1000) maxPartSize ∧
      schedule 0 ≤ schedule 1 ∧
      minPartSize ≤ schedule 0 ∧ schedule 0 ≤ maxPartSize) :=
  ⟨by decide, c6_part_size_growth [] envOK 0 1 (by decide)⟩

/-- Witness for C7 at a concrete input: a single three-byte chunk, whose
total length is well under the maximum object size. -/
theorem c7_witness :
    ([[1, 2, 3]] : List (List Byte)).flatten.length ≤ maxObjSize ∧
    (finalParts envOK [[1, 2, 3]]).length ≤ maxNPart :=
  ⟨by decide, c7_part_count_bound [[1, 2, 3]] envOK (by decide)⟩

/-- Witness for the amended C8 at concrete inputs: the quoted three-byte
header value with bytes quote, a, quote, and the quoted tag [98]. -/
theorem c8_witness :
    2 ≤ ([34, 97, 34] : List Byte).length ∧
    (putPartGo 200 [34, 97, 34]
        = PutOutcome.ok ((([34, 97, 34] : List Byte).drop 1).dropLast) ∧
      putPartGo 200 (34 :: [98] ++ [34]) = PutOutcome.ok [98]) :=
  ⟨by decide, c8_etag_recorded [34, 97, 34] [98] (by decide)⟩

/-- Witness for C10 at a concrete input: the one-byte header value [34]
(a single quote character), which makes the slice panic. -/
theorem c10_witness :
    (putPartGo 200 [34] = PutOutcome.panicked ↔ ([34] : List Byte).length < 2) ∧
    (2 ≤ ([34] : List Byte).length →
      putPartGo 200 [34] = PutOutcome.ok ((([34] : List Byte).drop 1).dropLast)) :=
  c10_etag_slice_panics [34]

end S3
